import Mathlib

/-!
Verification of the image-analysis pipeline of the `hass_indoor_sun`
custom component (`custom_components/hass_indoor_sun/__init__.py`).

The embedding models Python floats as exact rationals (`ℚ`), Python ints
as `ℤ`/`ℕ`, and a decoded PIL image as its pixel rows
(`List (List Pixel)`); `Image.open` failing to parse the bytes is
modelled as a `none` decode result.  Python's `round` builtin is
half-to-even rounding (`rhe` below), `int()` truncates toward zero
(`pyInt`), and a division whose denominator is zero raises
`ZeroDivisionError`, modelled by the explicit `zeroDivisionError` branch
guarding the mean computation.  The optional base64 `image_data` field
(`enable_image_entity`) re-encodes the frame through the external JPEG
encoder and is outside the model.
-/

namespace IndoorSun

/-- Python's `int()` applied to a float: truncation toward zero. -/
def pyInt (q : ℚ) : ℤ :=
  if 0 ≤ q then ⌊q⌋ else -⌊-q⌋

/-- Python's `round(x)` with no digits argument: round half to even. -/
def rhe (q : ℚ) : ℤ :=
  if q - ⌊q⌋ < 1/2 then ⌊q⌋
  else if 1/2 < q - ⌊q⌋ then ⌊q⌋ + 1
  else if ⌊q⌋ % 2 = 0 then ⌊q⌋ else ⌊q⌋ + 1

/-- Python's `round(x, 2)`: round half to even at two decimal places. -/
def pyRound2 (q : ℚ) : ℚ :=
  (rhe (q * 100) : ℚ) / 100

/-- Python's `round(x)` as used on the averaged channels (result is an int). -/
def pyRoundInt (q : ℚ) : ℤ :=
  rhe q

/-- One RGB pixel, channels as PIL returns them for mode RGB. -/
abbrev Pixel := ℕ × ℕ × ℕ

/-- Pixel lookup with PIL `Image.crop` padding semantics: coordinates
outside the decoded image read as black `(0,0,0)`. -/
def getPixel (rows : List (List Pixel)) (x y : ℤ) : Pixel :=
  if 0 ≤ x ∧ 0 ≤ y then (rows.getD y.toNat []).getD x.toNat (0, 0, 0)
  else (0, 0, 0)

/-- PIL `img.crop((l, t, r, b))`: the result has width `r - l` and height
`b - t` (empty when non-positive), pixels read from the source with
zero padding outside its bounds. -/
def cropRows (rows : List (List Pixel)) (l t r b : ℤ) : List (List Pixel) :=
  (List.range (b - t).toNat).map fun y =>
    (List.range (r - l).toNat).map fun x =>
      getPixel rows (l + x) (t + y)

/-- The coordinator's configuration fields read in `__init__` from the
merged `entry.data` / `entry.options` dict (defaults applied there). -/
structure Config where
  source_type : String
  base_url : String
  camera : String
  crop_coordinates : Option (ℤ × ℤ × ℤ × ℤ)
  brightness_adjustment_enabled : Bool
  min_brightness : ℤ
  max_brightness : ℤ
  color_adjustment_enabled : Bool
  min_color : ℤ × ℤ × ℤ
  max_color : ℤ × ℤ × ℤ
  deriving Repr, DecidableEq

/-- The crop step of `_process_image`: applied only when crop coordinates
were configured. -/
def croppedImage (cfg : Config) (rows : List (List Pixel)) : List (List Pixel) :=
  match cfg.crop_coordinates with
  | none => rows
  | some (l, t, r, b) => cropRows rows l t r b

/-- `avg_r = total_r / total_pixels` and likewise for g and b
(lines 251-257 of `__init__.py`); meaningful only for a nonempty pixel
list, which `processImage` checks before calling. -/
def meanRGB (pixels : List Pixel) : ℚ × ℚ × ℚ :=
  (((pixels.map fun p => p.1).sum : ℚ) / pixels.length,
   ((pixels.map fun p => p.2.1).sum : ℚ) / pixels.length,
   ((pixels.map fun p => p.2.2).sum : ℚ) / pixels.length)

/-- `brightness_y = 0.2126*avg_r + 0.7152*avg_g + 0.0722*avg_b` and
`brightness_percent = (brightness_y / 255) * 100`. -/
def lumaPercent (r g b : ℚ) : ℚ :=
  (0.2126 * r + 0.7152 * g + 0.0722 * b) / 255 * 100

/-- The unadjusted brightness percentage of a pixel list. -/
def rawBrightness (pixels : List Pixel) : ℚ :=
  lumaPercent (meanRGB pixels).1 (meanRGB pixels).2.1 (meanRGB pixels).2.2

/-- The brightness-adjustment step (lines 263-272): rescale and clamp only
when `span > 0`, otherwise the raw value passes through. -/
def adjustBrightness (minB maxB : ℤ) (bp : ℚ) : ℚ :=
  let span := maxB - minB
  if 0 < span then max 0 (min 100 ((bp - (minB : ℚ)) / (span : ℚ) * 100))
  else bp

/-- The inner `scale` function of `_process_image` (lines 278-284):
`max(0, min(255, int((v - vmin) / span * 255)))` when `span` is truthy
(nonzero), else `int(v)`. -/
def scale (v : ℚ) (vmin vmax : ℤ) : ℤ :=
  let span := vmax - vmin
  if span ≠ 0 then max 0 (min 255 (pyInt ((v - (vmin : ℚ)) / (span : ℚ) * 255)))
  else pyInt v

/-- How `_process_image` can fail for that poll cycle: unparseable bytes
raise inside `Image.open`, an empty pixel region raises
`ZeroDivisionError` at `total_r / total_pixels`. -/
inductive ProcError where
  | decodeError
  | zeroDivisionError
  deriving Repr, DecidableEq

/-- The dict returned by `_process_image` (the optional base64
`image_data` field is outside the model). -/
structure ProcResult where
  brightness : ℚ
  r : ℤ
  g : ℤ
  b : ℤ
  rgb_string : String
  source_type : String
  cropped : Bool
  brightness_adjusted : Bool
  color_adjusted : Bool
  deriving Repr, DecidableEq

/-- The result dict built by `_process_image` (lines 259-301) once the
pixel averages exist: brightness from the unadjusted means, optional
brightness rescale, optional per-channel color rescale, rounding, and
the provenance flags (set exactly when the corresponding adjustment is
enabled, whatever its span). -/
def analyze (cfg : Config) (pixels : List Pixel) : ProcResult :=
  let m := meanRGB pixels
  let bp0 := lumaPercent m.1 m.2.1 m.2.2
  let bp := if cfg.brightness_adjustment_enabled then
      adjustBrightness cfg.min_brightness cfg.max_brightness bp0
    else bp0
  let rgb : ℚ × ℚ × ℚ := if cfg.color_adjustment_enabled then
      ((scale m.1 cfg.min_color.1 cfg.max_color.1 : ℚ),
       (scale m.2.1 cfg.min_color.2.1 cfg.max_color.2.1 : ℚ),
       (scale m.2.2 cfg.min_color.2.2 cfg.max_color.2.2 : ℚ))
    else m
  { brightness := pyRound2 bp
    r := pyRoundInt rgb.1
    g := pyRoundInt rgb.2.1
    b := pyRoundInt rgb.2.2
    rgb_string := toString (pyRoundInt rgb.1) ++ ", " ++
      toString (pyRoundInt rgb.2.1) ++ ", " ++ toString (pyRoundInt rgb.2.2)
    source_type := cfg.source_type
    cropped := cfg.crop_coordinates.isSome
    brightness_adjusted := cfg.brightness_adjustment_enabled
    color_adjusted := cfg.color_adjustment_enabled }

/-- `_process_image` on the decode result of the input bytes
(`none` when `Image.open` cannot parse them), lines 229-301 of
`__init__.py`.  The `zeroDivisionError` branch models the
`ZeroDivisionError` raised by `avg_r = total_r / total_pixels` when the
(possibly cropped) region has no pixels. -/
def processImage (cfg : Config) (decoded : Option (List (List Pixel))) :
    Except ProcError ProcResult :=
  match decoded with
  | none => .error .decodeError
  | some rows0 =>
    let pixels := (croppedImage cfg rows0).flatten
    if pixels.length = 0 then .error .zeroDivisionError
    else .ok (analyze cfg pixels)

/-- URL construction of `_fetch_and_process_frame` (lines 184-187). -/
def buildUrl (cfg : Config) : String :=
  if cfg.source_type = "frigate" then
    cfg.base_url ++ "/api/" ++ cfg.camera ++ "/latest.jpg"
  else cfg.base_url

/-- What the HTTP GET of `_fetch_and_process_frame` can come back with:
a response with a status and body, or a network-level exception
(connect refused, DNS failure, timeout) carrying its message. -/
inductive HttpOutcome where
  | resp (status : ℕ) (body : List ℕ)
  | transport (msg : String)
  deriving Repr, DecidableEq

/-- The fetch part of `_fetch_and_process_frame` (lines 194-208): a
non-200 status raises `UpdateFailed("Failed to fetch frame: HTTP {s}")`
inside the `try`, whose `except Exception` handler wraps every failure
(that one included) as `UpdateFailed("Network error: {err}")`.  The
error value is the propagated message. -/
def fetchFrame (outcome : HttpOutcome) : Except String (List ℕ) :=
  match outcome with
  | .resp status body =>
    if status ≠ 200 then
      .error ("Network error: " ++ ("Failed to fetch frame: HTTP " ++ toString status))
    else .ok body
  | .transport msg => .error ("Network error: " ++ msg)

/-- The Poll Coordinator's cycle phases (spec section 4.3). -/
inductive PollPhase where
  | idle
  | fetching
  | processing
  | published
  | failed
  deriving Repr, DecidableEq

/-- Observable coordinator state: current phase, how many fetches have
been issued, the latest published result, and the last-success flag. -/
structure PollState where
  phase : PollPhase
  fetchCount : ℕ
  cache : Option ProcResult
  lastSuccess : Bool
  deriving Repr, DecidableEq

/-- Modelled from the spec: the Poll Coordinator's timer tick with the
single-flight guard (spec section 4.3).  The scheduling itself lives in
Home Assistant's `DataUpdateCoordinator` base class, which is not part
of this repository's sources; per the spec, a tick arriving while a
previous cycle is still in `FETCHING` or `PROCESSING` is skipped
entirely, and otherwise a new cycle starts by issuing exactly one
fetch. -/
def timerTick (s : PollState) : PollState :=
  if s.phase = PollPhase.fetching ∨ s.phase = PollPhase.processing then s
  else { s with phase := PollPhase.fetching, fetchCount := s.fetchCount + 1 }

/-! ### Concrete configurations and images used by witnesses -/

/-- A Frigate-source configuration with both adjustments enabled over
their full ranges and no crop. -/
def cfgW : Config :=
  { source_type := "frigate", base_url := "http://frigate.local:5000", camera := "porch",
    crop_coordinates := none,
    brightness_adjustment_enabled := true, min_brightness := 0, max_brightness := 100,
    color_adjustment_enabled := true, min_color := (0, 0, 0), max_color := (255, 255, 255) }

/-- A one-pixel pure-white frame. -/
def rowsW : List (List Pixel) := [[(255, 255, 255)]]

/-- The result of analysing `rowsW` under `cfgW`. -/
def resW : ProcResult :=
  { brightness := 100, r := 255, g := 255, b := 255,
    rgb_string := "255, 255, 255", source_type := "frigate",
    cropped := false, brightness_adjusted := true, color_adjusted := true }

/-- A configuration with no crop and no adjustments. -/
def cfg1 : Config :=
  { source_type := "frigate", base_url := "http://frigate.local:5000", camera := "porch",
    crop_coordinates := none,
    brightness_adjustment_enabled := false, min_brightness := 0, max_brightness := 100,
    color_adjustment_enabled := false, min_color := (0, 0, 0), max_color := (255, 255, 255) }

/-- A snapshot-source configuration whose brightness range is inverted
(`min_brightness = 100 > 0 = max_brightness`, so `span ≤ 0`) with the
adjustment still enabled. -/
def cfg10 : Config :=
  { source_type := "snapshot", base_url := "http://cam.local/snap.jpg", camera := "porch",
    crop_coordinates := none,
    brightness_adjustment_enabled := true, min_brightness := 100, max_brightness := 0,
    color_adjustment_enabled := false, min_color := (0, 0, 0), max_color := (255, 255, 255) }

/-- One dark pixel used with `cfg10`. -/
def rows10 : List (List Pixel) := [[(10, 20, 30)]]

/-- The result of analysing `rows10` under `cfg10`: the raw brightness
7.2925... rounds to 7.29 and passes through the enabled-but-degenerate
brightness adjustment untouched. -/
def res10 : ProcResult :=
  { brightness := 729/100, r := 10, g := 20, b := 30,
    rgb_string := "10, 20, 30", source_type := "snapshot",
    cropped := false, brightness_adjusted := true, color_adjusted := false }

/-- A configuration whose crop rectangle `(5, 0, 5, 10)` has zero width,
so the cropped region holds no pixels. -/
def cfgC2 : Config :=
  { source_type := "frigate", base_url := "http://frigate.local:5000", camera := "porch",
    crop_coordinates := some (5, 0, 5, 10),
    brightness_adjustment_enabled := false, min_brightness := 0, max_brightness := 100,
    color_adjustment_enabled := false, min_color := (0, 0, 0), max_color := (255, 255, 255) }

/-! ### Helper lemmas about the Python rounding and truncation helpers -/

theorem rhe_intCast (n : ℤ) : rhe (n : ℚ) = n := by
  simp [rhe]

theorem rhe_nonneg {q : ℚ} (h : 0 ≤ q) : 0 ≤ rhe q := by
  have hf : 0 ≤ ⌊q⌋ := Int.floor_nonneg.mpr h
  rw [rhe]
  split_ifs <;> omega

theorem rhe_le {q : ℚ} {n : ℤ} (h : q ≤ (n : ℚ)) : rhe q ≤ n := by
  have hf : ⌊q⌋ ≤ n := by
    have := Int.floor_le_floor h
    simpa using this
  rw [rhe]
  split_ifs with h1 h2 h3
  · exact hf
  · have hq : (⌊q⌋ : ℚ) < q := by linarith
    have : (⌊q⌋ : ℚ) < (n : ℚ) := lt_of_lt_of_le hq h
    have : ⌊q⌋ < n := by exact_mod_cast this
    omega
  · exact hf
  · have h12 : q - ⌊q⌋ = 1/2 := le_antisymm (not_lt.mp h2) (not_lt.mp h1)
    have hq : (⌊q⌋ : ℚ) < q := by linarith
    have : (⌊q⌋ : ℚ) < (n : ℚ) := lt_of_lt_of_le hq h
    have : ⌊q⌋ < n := by exact_mod_cast this
    omega

theorem pyRoundInt_intCast (n : ℤ) : pyRoundInt (n : ℚ) = n :=
  rhe_intCast n

theorem pyRoundInt_natCast (k : ℕ) : pyRoundInt (k : ℚ) = (k : ℤ) := by
  have : ((k : ℕ) : ℚ) = (((k : ℤ)) : ℚ) := by push_cast; ring
  rw [pyRoundInt, this]
  exact rhe_intCast _

theorem pyInt_nonpos {q : ℚ} (h : q ≤ 0) : pyInt q ≤ 0 := by
  rw [pyInt]
  split_ifs with h0
  · have : ⌊q⌋ ≤ ⌊(0 : ℚ)⌋ := Int.floor_le_floor h
    simpa using this
  · have h1 : (0 : ℚ) ≤ -q := by linarith
    have : 0 ≤ ⌊-q⌋ := Int.floor_nonneg.mpr h1
    omega

theorem pyInt_mono {x y : ℚ} (h : x ≤ y) : pyInt x ≤ pyInt y := by
  rw [pyInt, pyInt]
  split_ifs with hx hy hy
  · exact Int.floor_le_floor h
  · exact absurd (hx.trans h) hy
  · have h1 : 0 ≤ ⌊-x⌋ := Int.floor_nonneg.mpr (by linarith)
    have h2 : 0 ≤ ⌊y⌋ := Int.floor_nonneg.mpr hy
    omega
  · have h1 : -y ≤ -x := by linarith
    have := Int.floor_le_floor h1
    omega

theorem le_pyInt {n : ℤ} {q : ℚ} (hn : 0 ≤ n) (h : (n : ℚ) ≤ q) : n ≤ pyInt q := by
  have hq : (0 : ℚ) ≤ q := le_trans (by exact_mod_cast hn) h
  rw [pyInt, if_pos hq]
  exact Int.le_floor.mpr h

theorem pyRound2_nonneg {q : ℚ} (h : 0 ≤ q) : 0 ≤ pyRound2 q := by
  have h1 : 0 ≤ rhe (q * 100) := rhe_nonneg (by positivity)
  have h2 : (0 : ℚ) ≤ (rhe (q * 100) : ℚ) := by exact_mod_cast h1
  rw [pyRound2]
  positivity

theorem pyRound2_le {q : ℚ} {n : ℤ} (h : q ≤ (n : ℚ)) : pyRound2 q ≤ (n : ℚ) := by
  have h1 : rhe (q * 100) ≤ 100 * n := rhe_le (by push_cast; linarith)
  have h2 : ((rhe (q * 100)) : ℚ) ≤ ((100 * n : ℤ) : ℚ) := by exact_mod_cast h1
  rw [pyRound2, div_le_iff₀ (by norm_num)]
  push_cast at h2 ⊢
  linarith

/-! ### Helper lemmas about channel means and the luminance formula -/

theorem mean_channel_bounds (pixels : List Pixel) (f : Pixel → ℕ)
    (hf : ∀ p ∈ pixels, f p ≤ 255) :
    0 ≤ ((pixels.map f).sum : ℚ) / (pixels.length : ℚ) ∧
      ((pixels.map f).sum : ℚ) / (pixels.length : ℚ) ≤ 255 := by
  constructor
  · positivity
  · rcases eq_or_ne pixels.length 0 with h0 | h0
    · rw [h0]
      norm_num
    · have h1 := List.sum_le_card_nsmul (pixels.map f) 255 (by
        intro x hx
        obtain ⟨p, hp, rfl⟩ := List.mem_map.mp hx
        exact hf p hp)
      have hsum : (pixels.map f).sum ≤ 255 * pixels.length := by
        simpa [smul_eq_mul, List.length_map, mul_comm] using h1
      rw [div_le_iff₀ (show (0 : ℚ) < (pixels.length : ℚ) by
        exact_mod_cast Nat.pos_of_ne_zero h0)]
      calc ((pixels.map f).sum : ℚ) ≤ ((255 * pixels.length : ℕ) : ℚ) := by
            exact_mod_cast hsum
      _ = 255 * (pixels.length : ℚ) := by push_cast; ring

theorem lumaPercent_nonneg {r g b : ℚ} (hr : 0 ≤ r) (hg : 0 ≤ g) (hb : 0 ≤ b) :
    0 ≤ lumaPercent r g b := by
  rw [lumaPercent]
  have h1 : (0 : ℚ) ≤ 0.2126 * r + 0.7152 * g + 0.0722 * b := by
    norm_num
    nlinarith
  positivity

theorem lumaPercent_le_100 {r g b : ℚ} (hr : r ≤ 255) (hg : g ≤ 255) (hb : b ≤ 255) :
    lumaPercent r g b ≤ 100 := by
  rw [lumaPercent, div_mul_eq_mul_div, div_le_iff₀ (by norm_num)]
  norm_num
  nlinarith

/-! ### Helper lemmas about the brightness and color rescaling steps -/

theorem adjustBrightness_of_lt {minB maxB : ℤ} (h : minB < maxB) (bp : ℚ) :
    adjustBrightness minB maxB bp =
      max 0 (min 100 ((bp - (minB : ℚ)) / ((maxB : ℚ) - (minB : ℚ)) * 100)) := by
  rw [adjustBrightness]
  rw [if_pos (show (0 : ℤ) < maxB - minB by omega)]
  push_cast
  ring_nf

theorem adjustBrightness_mem {minB maxB : ℤ} (h : minB < maxB) (bp : ℚ) :
    0 ≤ adjustBrightness minB maxB bp ∧ adjustBrightness minB maxB bp ≤ 100 := by
  rw [adjustBrightness_of_lt h]
  exact ⟨le_max_left _ _, max_le (by norm_num) (min_le_left _ _)⟩

theorem adjustBrightness_le_min {minB maxB : ℤ} (h : minB < maxB) {bp : ℚ}
    (hbp : bp ≤ (minB : ℚ)) : adjustBrightness minB maxB bp = 0 := by
  rw [adjustBrightness_of_lt h]
  have hspan : (0 : ℚ) < (maxB : ℚ) - (minB : ℚ) := by
    have : (minB : ℚ) < (maxB : ℚ) := by exact_mod_cast h
    linarith
  have hx : (bp - (minB : ℚ)) / ((maxB : ℚ) - (minB : ℚ)) * 100 ≤ 0 := by
    apply mul_nonpos_of_nonpos_of_nonneg _ (by norm_num)
    exact div_nonpos_of_nonpos_of_nonneg (by linarith) (le_of_lt hspan)
  rw [min_eq_right (hx.trans (by norm_num)), max_eq_left hx]

theorem adjustBrightness_ge_max {minB maxB : ℤ} (h : minB < maxB) {bp : ℚ}
    (hbp : (maxB : ℚ) ≤ bp) : adjustBrightness minB maxB bp = 100 := by
  rw [adjustBrightness_of_lt h]
  have hspan : (0 : ℚ) < (maxB : ℚ) - (minB : ℚ) := by
    have : (minB : ℚ) < (maxB : ℚ) := by exact_mod_cast h
    linarith
  have hx : (100 : ℚ) ≤ (bp - (minB : ℚ)) / ((maxB : ℚ) - (minB : ℚ)) * 100 := by
    have h1 : (1 : ℚ) ≤ (bp - (minB : ℚ)) / ((maxB : ℚ) - (minB : ℚ)) := by
      rw [le_div_iff₀ hspan]
      linarith
    nlinarith
  rw [min_eq_left hx, max_eq_right (by norm_num)]

theorem adjustBrightness_id {bp : ℚ} (h0 : 0 ≤ bp) (h1 : bp ≤ 100) :
    adjustBrightness 0 100 bp = bp := by
  rw [adjustBrightness_of_lt (by norm_num)]
  norm_num
  rw [min_eq_right h1, max_eq_right h0]

theorem scale_of_lt {vmin vmax : ℤ} (h : vmin < vmax) (v : ℚ) :
    scale v vmin vmax =
      max 0 (min 255 (pyInt ((v - (vmin : ℚ)) / ((vmax : ℚ) - (vmin : ℚ)) * 255))) := by
  rw [scale]
  rw [if_pos (show vmax - vmin ≠ 0 by omega)]
  push_cast
  ring_nf

theorem scale_mem {vmin vmax : ℤ} (h : vmin < vmax) (v : ℚ) :
    0 ≤ scale v vmin vmax ∧ scale v vmin vmax ≤ 255 := by
  rw [scale_of_lt h]
  exact ⟨le_max_left _ _, max_le (by norm_num) (min_le_left _ _)⟩

theorem scale_mono {vmin vmax : ℤ} (h : vmin < vmax) {v1 v2 : ℚ} (h12 : v1 ≤ v2) :
    scale v1 vmin vmax ≤ scale v2 vmin vmax := by
  rw [scale_of_lt h, scale_of_lt h]
  have hspan : (0 : ℚ) < (vmax : ℚ) - (vmin : ℚ) := by
    have : (vmin : ℚ) < (vmax : ℚ) := by exact_mod_cast h
    linarith
  have he : (v1 - (vmin : ℚ)) / ((vmax : ℚ) - (vmin : ℚ)) * 255 ≤
      (v2 - (vmin : ℚ)) / ((vmax : ℚ) - (vmin : ℚ)) * 255 := by
    gcongr
  have hp := pyInt_mono he
  exact max_le_max (le_refl 0) (min_le_min (le_refl 255) hp)

theorem scale_le_min {vmin vmax : ℤ} (h : vmin < vmax) {v : ℚ} (hv : v ≤ (vmin : ℚ)) :
    scale v vmin vmax = 0 := by
  rw [scale_of_lt h]
  have hspan : (0 : ℚ) < (vmax : ℚ) - (vmin : ℚ) := by
    have : (vmin : ℚ) < (vmax : ℚ) := by exact_mod_cast h
    linarith
  have hx : (v - (vmin : ℚ)) / ((vmax : ℚ) - (vmin : ℚ)) * 255 ≤ 0 := by
    apply mul_nonpos_of_nonpos_of_nonneg _ (by norm_num)
    exact div_nonpos_of_nonpos_of_nonneg (by linarith) (le_of_lt hspan)
  have hp : pyInt ((v - (vmin : ℚ)) / ((vmax : ℚ) - (vmin : ℚ)) * 255) ≤ 0 :=
    pyInt_nonpos hx
  rw [min_eq_right (le_trans hp (by norm_num)), max_eq_left hp]

theorem scale_ge_max {vmin vmax : ℤ} (h : vmin < vmax) {v : ℚ} (hv : (vmax : ℚ) ≤ v) :
    scale v vmin vmax = 255 := by
  rw [scale_of_lt h]
  have hspan : (0 : ℚ) < (vmax : ℚ) - (vmin : ℚ) := by
    have : (vmin : ℚ) < (vmax : ℚ) := by exact_mod_cast h
    linarith
  have hx : (255 : ℚ) ≤ (v - (vmin : ℚ)) / ((vmax : ℚ) - (vmin : ℚ)) * 255 := by
    have h1 : (1 : ℚ) ≤ (v - (vmin : ℚ)) / ((vmax : ℚ) - (vmin : ℚ)) := by
      rw [le_div_iff₀ hspan]
      linarith
    nlinarith
  have hp : (255 : ℤ) ≤ pyInt ((v - (vmin : ℚ)) / ((vmax : ℚ) - (vmin : ℚ)) * 255) :=
    le_pyInt (by norm_num) (by exact_mod_cast hx)
  rw [min_eq_left hp, max_eq_right (by norm_num)]

/-! ### Helper lemmas about cropping and pixel membership -/

theorem getPixel_mem_or_default (rows : List (List Pixel)) (x y : ℤ) :
    getPixel rows x y ∈ rows.flatten ∨ getPixel rows x y = (0, 0, 0) := by
  rw [getPixel]
  split_ifs with hxy
  · by_cases hy : y.toNat < rows.length
    · have hrow : rows.getD y.toNat [] = rows[y.toNat] := by
        simp [List.getD, List.getElem?_eq_getElem hy]
      rw [hrow]
      by_cases hx : x.toNat < (rows[y.toNat]).length
      · have hel : (rows[y.toNat]).getD x.toNat (0, 0, 0) = (rows[y.toNat])[x.toNat] := by
          simp [List.getD, List.getElem?_eq_getElem hx]
        rw [hel]
        left
        exact List.mem_flatten.mpr ⟨rows[y.toNat], List.getElem_mem hy, List.getElem_mem hx⟩
      · right
        simp [List.getD, List.getElem?_eq_none_iff.mpr (Nat.le_of_not_lt hx)]
    · right
      have : rows.getD y.toNat [] = [] := by
        simp [List.getD, List.getElem?_eq_none_iff.mpr (Nat.le_of_not_lt hy)]
      rw [this]
      rfl
  · right
    rfl

theorem croppedImage_pixel_cases (cfg : Config) (rows : List (List Pixel)) {p : Pixel}
    (hp : p ∈ (croppedImage cfg rows).flatten) : p ∈ rows.flatten ∨ p = (0, 0, 0) := by
  rcases hcc : cfg.crop_coordinates with _ | ⟨l, t, r, b⟩
  · rw [croppedImage, hcc] at hp
    exact Or.inl hp
  · rw [croppedImage, hcc] at hp
    simp only [cropRows, List.mem_flatten, List.mem_map, List.mem_range] at hp
    obtain ⟨row, ⟨y, hy, hrow⟩, hmem⟩ := hp
    rw [← hrow] at hmem
    simp only [List.mem_map, List.mem_range] at hmem
    obtain ⟨x, hx, hpx⟩ := hmem
    rw [← hpx]
    exact getPixel_mem_or_default rows (l + x) (t + y)

theorem croppedImage_none {cfg : Config} (h : cfg.crop_coordinates = none)
    (rows : List (List Pixel)) : croppedImage cfg rows = rows := by
  rw [croppedImage, h]

/-! ### Helper lemmas about solid-color images -/

theorem flatten_replicate (m n : ℕ) (a : Pixel) :
    (List.replicate m (List.replicate n a)).flatten = List.replicate (m * n) a := by
  induction m with
  | zero => simp
  | succ k ih =>
    rw [List.replicate_succ, List.flatten_cons, ih, ← List.replicate_add]
    congr 1
    ring

theorem meanRGB_replicate {k : ℕ} (hk : k ≠ 0) (r g b : ℕ) :
    meanRGB (List.replicate k (r, g, b)) = ((r : ℚ), (g : ℚ), (b : ℚ)) := by
  have hk' : ((k : ℚ)) ≠ 0 := Nat.cast_ne_zero.mpr hk
  simp only [meanRGB, List.map_replicate, List.sum_replicate, List.length_replicate]
  rw [nsmul_eq_mul, nsmul_eq_mul, nsmul_eq_mul,
    mul_div_cancel_left₀ _ hk', mul_div_cancel_left₀ _ hk', mul_div_cancel_left₀ _ hk']

/-! ### Inversion of a successful processImage call -/

theorem processImage_ok_inv {cfg : Config} {rows : List (List Pixel)} {res : ProcResult}
    (hok : processImage cfg (some rows) = .ok res) :
    ((croppedImage cfg rows).flatten).length ≠ 0 ∧
      res = analyze cfg ((croppedImage cfg rows).flatten) := by
  simp only [processImage] at hok
  split at hok
  · exact absurd hok (by simp)
  · rename_i hne
    exact ⟨hne, (Except.ok.inj hok).symm⟩

/-! ### Concrete evaluations shared by the witnesses -/

theorem processImage_cfgW : processImage cfgW (some rowsW) = .ok resW := by
  norm_num [processImage, croppedImage, cfgW, rowsW, resW, analyze, meanRGB,
    lumaPercent, adjustBrightness, scale, pyInt, pyRound2, pyRoundInt, rhe]
  decide

theorem processImage_cfg10 : processImage cfg10 (some rows10) = .ok res10 := by
  norm_num [processImage, croppedImage, cfg10, rows10, res10, analyze, meanRGB,
    lumaPercent, adjustBrightness, scale, pyInt, pyRound2, pyRoundInt, rhe]
  decide

/-! ### The claims -/

/-- Claim C2 (counterexample to the claim as stated): on a frame whose
configured crop rectangle has zero width, `_process_image` fails with
the `ZeroDivisionError` raised by `total_r / total_pixels`, which is not
a classified decode failure. -/
theorem c2_counterexample :
    processImage cfgC2 (some [[(9, 9, 9)]]) = .error .zeroDivisionError ∧
      ProcError.zeroDivisionError ≠ ProcError.decodeError :=
  ⟨rfl, by decide⟩

/-- Claim C2 (amended): for every input whose (possibly cropped) pixel
region is empty, `_process_image` fails that poll cycle, but by raising
the `ZeroDivisionError` from the mean computation rather than a
classified decode failure. -/
theorem c2_empty_region_zero_division (cfg : Config) (rows : List (List Pixel))
    (h : ((croppedImage cfg rows).flatten).length = 0) :
    processImage cfg (some rows) = .error .zeroDivisionError := by
  simp only [processImage]
  rw [if_pos h]

/-- Witness for C2's amended theorem at the zero-width crop. -/
theorem c2_empty_region_zero_division_witness :
    processImage cfgC2 (some [[(9, 9, 9)]]) = .error .zeroDivisionError :=
  c2_empty_region_zero_division cfgC2 [[(9, 9, 9)]] rfl

/-- Claim C3 (counterexample to the claim as stated): a 404 response and
a transport failure whose exception message happens to read
`Failed to fetch frame: HTTP 404` propagate the very same error, so the
two failure kinds are not distinguishable in the propagated error. -/
theorem c3_counterexample :
    fetchFrame (.resp 404 []) =
      fetchFrame (.transport ("Failed to fetch frame: HTTP 404")) :=
  rfl

/-- Claim C3 (amended): a response with status other than 200 fails the
cycle with `UpdateFailed` whose message embeds the HTTP status, and a
network-level failure fails it with `UpdateFailed` embedding the
transport message; both are wrapped by the same generic
`Network error:` handler, so the kinds are distinguishable only by
message text. -/
theorem c3_fetch_failures (status : ℕ) (body : List ℕ) (msg : String)
    (h : status ≠ 200) :
    fetchFrame (.resp status body) =
      .error ("Network error: " ++ ("Failed to fetch frame: HTTP " ++ toString status)) ∧
    fetchFrame (.transport msg) = .error ("Network error: " ++ msg) := by
  constructor
  · simp only [fetchFrame]
    rw [if_pos h]
  · rfl

/-- Witness for C3's amended theorem at status 404 and a DNS failure. -/
theorem c3_fetch_failures_witness :
    fetchFrame (.resp 404 []) =
      .error ("Network error: " ++ ("Failed to fetch frame: HTTP " ++ toString 404)) ∧
    fetchFrame (.transport ("dns lookup failed")) =
      .error ("Network error: " ++ "dns lookup failed") :=
  c3_fetch_failures 404 [] ("dns lookup failed") (by decide)

/-- Claim C5: with `min < max` configured for a channel, the per-channel
`scale` map is monotone non-decreasing, sends every value at or below
`min` to 0, and every value at or above `max` to 255. -/
theorem c5_scale_monotone_clamps (vmin vmax : ℤ) (v1 v2 : ℚ)
    (hlt : vmin < vmax) (h12 : v1 ≤ v2) :
    scale v1 vmin vmax ≤ scale v2 vmin vmax ∧
      (v1 ≤ (vmin : ℚ) → scale v1 vmin vmax = 0) ∧
      ((vmax : ℚ) ≤ v2 → scale v2 vmin vmax = 255) :=
  ⟨scale_mono hlt h12, fun hv => scale_le_min hlt hv, fun hv => scale_ge_max hlt hv⟩

/-- Witness for C5 on the channel range 20..80 at values 10 and 100. -/
theorem c5_scale_monotone_clamps_witness :
    scale 10 20 80 ≤ scale 100 20 80 ∧ scale 10 20 80 = 0 ∧ scale 100 20 80 = 255 := by
  obtain ⟨h1, h2, h3⟩ := c5_scale_monotone_clamps 20 80 10 100 (by decide) (by norm_num)
  exact ⟨h1, h2 (by norm_num), h3 (by norm_num)⟩

/-- Claim C8: the fetch URL is `base_url/api/camera/latest.jpg` exactly
when the source type is `frigate`, and `base_url` verbatim for every
other source type. -/
theorem c8_url_construction (cfg : Config) :
    (cfg.source_type = "frigate" →
      buildUrl cfg = cfg.base_url ++ "/api/" ++ cfg.camera ++ "/latest.jpg") ∧
    (cfg.source_type ≠ "frigate" → buildUrl cfg = cfg.base_url) := by
  constructor <;> intro h <;> simp [buildUrl, h]

/-- Witness for C8 on a Frigate source and on a snapshot source. -/
theorem c8_url_construction_witness :
    buildUrl cfgW = cfgW.base_url ++ "/api/" ++ cfgW.camera ++ "/latest.jpg" ∧
      buildUrl cfg10 = cfg10.base_url :=
  ⟨(c8_url_construction cfgW).1 rfl, (c8_url_construction cfg10).2 (by decide)⟩

/-- Claim C9: a timer tick that arrives while a previous cycle is still
fetching or processing starts no second fetch: the skipped tick leaves
the fetch-call counter, and the whole coordinator state, unchanged. -/
theorem c9_single_flight (s : PollState)
    (h : s.phase = PollPhase.fetching ∨ s.phase = PollPhase.processing) :
    (timerTick s).fetchCount = s.fetchCount ∧ timerTick s = s := by
  rw [timerTick, if_pos h]
  exact ⟨rfl, rfl⟩

/-- Claim C1: for every solid-color N by M image (with at least one
pixel) of uniform pixel `(r, g, b)` and a config with no crop and no
adjustments, `_process_image` returns `r`, `g`, `b` unchanged, and its
brightness is `(0.2126*r + 0.7152*g + 0.0722*b) / 255 * 100` rounded to
two decimal places. -/
theorem c1_solid_color (cfg : Config) (N M r g b : ℕ)
    (hcrop : cfg.crop_coordinates = none)
    (hbe : cfg.brightness_adjustment_enabled = false)
    (hce : cfg.color_adjustment_enabled = false)
    (hN : 0 < N) (hM : 0 < M) :
    processImage cfg (some (List.replicate M (List.replicate N (r, g, b)))) =
      .ok { brightness :=
              pyRound2 ((0.2126 * (r : ℚ) + 0.7152 * (g : ℚ) + 0.0722 * (b : ℚ)) / 255 * 100),
            r := (r : ℤ), g := (g : ℤ), b := (b : ℤ),
            rgb_string := toString (r : ℤ) ++ ", " ++ toString (g : ℤ) ++ ", " ++
              toString (b : ℤ),
            source_type := cfg.source_type, cropped := false,
            brightness_adjusted := false, color_adjusted := false } := by
  have hk : M * N ≠ 0 := Nat.mul_ne_zero (by omega) (by omega)
  simp only [processImage, croppedImage_none hcrop]
  rw [flatten_replicate]
  rw [if_neg (by simpa using hk)]
  simp only [analyze, meanRGB_replicate hk, hbe, hce, Bool.false_eq_true, if_false,
    lumaPercent, pyRoundInt_natCast, hcrop, Option.isSome_none]

/-- Witness for C1 on the one-pixel pure-white image. -/
theorem c1_solid_color_witness :
    processImage cfg1 (some (List.replicate 1 (List.replicate 1 (255, 255, 255)))) =
      .ok { brightness :=
              pyRound2 ((0.2126 * ((255 : ℕ) : ℚ) + 0.7152 * ((255 : ℕ) : ℚ) +
                0.0722 * ((255 : ℕ) : ℚ)) / 255 * 100),
            r := ((255 : ℕ) : ℤ), g := ((255 : ℕ) : ℤ), b := ((255 : ℕ) : ℤ),
            rgb_string := toString ((255 : ℕ) : ℤ) ++ ", " ++ toString ((255 : ℕ) : ℤ) ++
              ", " ++ toString ((255 : ℕ) : ℤ),
            source_type := cfg1.source_type, cropped := false,
            brightness_adjusted := false, color_adjusted := false } :=
  c1_solid_color cfg1 1 1 255 255 255 rfl rfl rfl (by decide) (by decide)

/-- Claim C4: when brightness adjustment is enabled with `min < max`, the
output brightness is the clamped rescale
`clamp 0 100 ((raw - min) / (max - min) * 100)` of the raw luminance
percentage (modulo the final 2-decimal rounding); with `min = 0,
max = 100` the rescale is the identity on `[0, 100]`, and with
`min = 20, max = 80` the value 20 maps to 0, the value 80 maps to 100,
and values outside `[20, 80]` are clamped. -/
theorem c4_brightness_rescale (cfg : Config) (rows : List (List Pixel)) (res : ProcResult)
    (hen : cfg.brightness_adjustment_enabled = true)
    (hlt : cfg.min_brightness < cfg.max_brightness)
    (hok : processImage cfg (some rows) = .ok res) :
    res.brightness = pyRound2 (max 0 (min 100
      ((rawBrightness ((croppedImage cfg rows).flatten) - (cfg.min_brightness : ℚ)) /
        ((cfg.max_brightness : ℚ) - (cfg.min_brightness : ℚ)) * 100))) ∧
    (∀ raw : ℚ, 0 ≤ raw → raw ≤ 100 → adjustBrightness 0 100 raw = raw) ∧
    adjustBrightness 20 80 20 = 0 ∧
    adjustBrightness 20 80 80 = 100 ∧
    (∀ raw : ℚ, raw ≤ 20 → adjustBrightness 20 80 raw = 0) ∧
    (∀ raw : ℚ, 80 ≤ raw → adjustBrightness 20 80 raw = 100) := by
  obtain ⟨hne, hres⟩ := processImage_ok_inv hok
  subst hres
  refine ⟨?_, fun raw h0 h1 => adjustBrightness_id h0 h1,
    adjustBrightness_le_min (by norm_num) (by norm_num),
    adjustBrightness_ge_max (by norm_num) (by norm_num),
    fun raw h => adjustBrightness_le_min (by norm_num) (by exact_mod_cast h),
    fun raw h => adjustBrightness_ge_max (by norm_num) (by exact_mod_cast h)⟩
  simp only [analyze, hen, if_true]
  rw [adjustBrightness_of_lt hlt]
  rfl

/-- Witness for C4 under `cfgW` (range 0..100) on the white frame. -/
theorem c4_brightness_rescale_witness :
    resW.brightness = pyRound2 (max 0 (min 100
      ((rawBrightness ((croppedImage cfgW rowsW).flatten) - (cfgW.min_brightness : ℚ)) /
        ((cfgW.max_brightness : ℚ) - (cfgW.min_brightness : ℚ)) * 100))) ∧
    adjustBrightness 0 100 (50 : ℚ) = 50 ∧
    adjustBrightness 20 80 20 = 0 ∧
    adjustBrightness 20 80 80 = 100 ∧
    adjustBrightness 20 80 (10 : ℚ) = 0 ∧
    adjustBrightness 20 80 (95 : ℚ) = 100 := by
  obtain ⟨h1, h2, h3, h4, h5, h6⟩ :=
    c4_brightness_rescale cfgW rowsW resW rfl (by decide) processImage_cfgW
  exact ⟨h1, h2 50 (by norm_num) (by norm_num), h3, h4, h5 10 (by norm_num),
    h6 95 (by norm_num)⟩

/-- Claim C6: the brightness reported by `_process_image` is computed
from the unadjusted mean RGB, so it is identical whether color
adjustment is enabled or disabled, all other config fields equal. -/
theorem c6_brightness_independent_of_color (cfg : Config)
    (decoded : Option (List (List Pixel))) :
    (processImage { cfg with color_adjustment_enabled := true } decoded).map
        ProcResult.brightness =
      (processImage { cfg with color_adjustment_enabled := false } decoded).map
        ProcResult.brightness := by
  cases decoded with
  | none => rfl
  | some rows =>
    have hcrop : croppedImage { cfg with color_adjustment_enabled := true } rows =
        croppedImage cfg rows := rfl
    have hcrop' : croppedImage { cfg with color_adjustment_enabled := false } rows =
        croppedImage cfg rows := rfl
    simp only [processImage, hcrop, hcrop']
    by_cases h : ((croppedImage cfg rows).flatten).length = 0
    · rw [if_pos h, if_pos h]
    · rw [if_neg h, if_neg h]
      rfl

/-- Claim C10: the provenance flags equal the configured enable booleans
regardless of whether any value changed; in particular with brightness
adjustment enabled but `max ≤ min` (span not positive) the raw
brightness passes through with no rescaling and no clamping while the
flag is still reported true. -/
theorem c10_provenance_flags (cfg : Config) (rows : List (List Pixel)) (res : ProcResult)
    (hok : processImage cfg (some rows) = .ok res) :
    res.brightness_adjusted = cfg.brightness_adjustment_enabled ∧
    res.color_adjusted = cfg.color_adjustment_enabled ∧
    (cfg.brightness_adjustment_enabled = true →
      cfg.max_brightness ≤ cfg.min_brightness →
      res.brightness = pyRound2 (rawBrightness ((croppedImage cfg rows).flatten))) := by
  obtain ⟨hne, hres⟩ := processImage_ok_inv hok
  subst hres
  refine ⟨rfl, rfl, fun hen hspan => ?_⟩
  simp only [analyze, hen, if_true, adjustBrightness]
  rw [if_neg (show ¬ (0 : ℤ) < cfg.max_brightness - cfg.min_brightness by omega)]
  rfl

/-- Witness for C10 under `cfg10` (enabled but inverted range 100..0). -/
theorem c10_provenance_flags_witness :
    res10.brightness_adjusted = cfg10.brightness_adjustment_enabled ∧
    res10.color_adjusted = cfg10.color_adjustment_enabled ∧
    res10.brightness = pyRound2 (rawBrightness ((croppedImage cfg10 rows10).flatten)) := by
  obtain ⟨h1, h2, h3⟩ := c10_provenance_flags cfg10 rows10 res10 processImage_cfg10
  exact ⟨h1, h2, h3 rfl (by decide)⟩

/-- Claim C7: every successful `_process_image` result under a valid
config (all configured ranges have `min < max`) has a brightness that is
a 2-decimal value in `[0, 100]`, integer channels `r`, `g`, `b` in
`[0, 255]`, and an `rgb_string` that renders those same three
integers. -/
theorem c7_result_invariants (cfg : Config) (rows : List (List Pixel)) (res : ProcResult)
    (hb : cfg.min_brightness < cfg.max_brightness)
    (hcr : cfg.min_color.1 < cfg.max_color.1)
    (hcg : cfg.min_color.2.1 < cfg.max_color.2.1)
    (hcb : cfg.min_color.2.2 < cfg.max_color.2.2)
    (hpix : ∀ p ∈ rows.flatten, p.1 ≤ 255 ∧ p.2.1 ≤ 255 ∧ p.2.2 ≤ 255)
    (hok : processImage cfg (some rows) = .ok res) :
    (∃ n : ℤ, res.brightness = (n : ℚ) / 100) ∧
    0 ≤ res.brightness ∧ res.brightness ≤ 100 ∧
    0 ≤ res.r ∧ res.r ≤ 255 ∧ 0 ≤ res.g ∧ res.g ≤ 255 ∧ 0 ≤ res.b ∧ res.b ≤ 255 ∧
    res.rgb_string = toString res.r ++ ", " ++ toString res.g ++ ", " ++ toString res.b := by
  obtain ⟨hne, hres⟩ := processImage_ok_inv hok
  subst hres
  have hpix' : ∀ p ∈ (croppedImage cfg rows).flatten,
      p.1 ≤ 255 ∧ p.2.1 ≤ 255 ∧ p.2.2 ≤ 255 := by
    intro p hp
    rcases croppedImage_pixel_cases cfg rows hp with h | h
    · exact hpix p h
    · rw [h]
      exact ⟨by norm_num, by norm_num, by norm_num⟩
  have hmr := mean_channel_bounds ((croppedImage cfg rows).flatten) (fun p => p.1)
    (fun p hp => (hpix' p hp).1)
  have hmg := mean_channel_bounds ((croppedImage cfg rows).flatten) (fun p => p.2.1)
    (fun p hp => (hpix' p hp).2.1)
  have hmb := mean_channel_bounds ((croppedImage cfg rows).flatten) (fun p => p.2.2)
    (fun p hp => (hpix' p hp).2.2)
  set pixels := (croppedImage cfg rows).flatten with hpxdef
  have hm1 : 0 ≤ (meanRGB pixels).1 ∧ (meanRGB pixels).1 ≤ 255 := by
    simpa [meanRGB] using hmr
  have hm2 : 0 ≤ (meanRGB pixels).2.1 ∧ (meanRGB pixels).2.1 ≤ 255 := by
    simpa [meanRGB] using hmg
  have hm3 : 0 ≤ (meanRGB pixels).2.2 ∧ (meanRGB pixels).2.2 ≤ 255 := by
    simpa [meanRGB] using hmb
  have hraw : 0 ≤ rawBrightness pixels ∧ rawBrightness pixels ≤ 100 :=
    ⟨lumaPercent_nonneg hm1.1 hm2.1 hm3.1, lumaPercent_le_100 hm1.2 hm2.2 hm3.2⟩
  have hbp : 0 ≤ (if cfg.brightness_adjustment_enabled then
        adjustBrightness cfg.min_brightness cfg.max_brightness (rawBrightness pixels)
      else rawBrightness pixels) ∧
      (if cfg.brightness_adjustment_enabled then
        adjustBrightness cfg.min_brightness cfg.max_brightness (rawBrightness pixels)
      else rawBrightness pixels) ≤ 100 := by
    split
    · exact adjustBrightness_mem hb _
    · exact hraw
  have hround : 0 ≤ pyRound2 (if cfg.brightness_adjustment_enabled then
        adjustBrightness cfg.min_brightness cfg.max_brightness (rawBrightness pixels)
      else rawBrightness pixels) ∧
      pyRound2 (if cfg.brightness_adjustment_enabled then
        adjustBrightness cfg.min_brightness cfg.max_brightness (rawBrightness pixels)
      else rawBrightness pixels) ≤ 100 := by
    constructor
    · exact pyRound2_nonneg hbp.1
    · have := pyRound2_le (n := 100) (by exact_mod_cast hbp.2)
      exact_mod_cast this
  have hchan : ∀ v : ℚ, 0 ≤ v → v ≤ 255 → 0 ≤ pyRoundInt v ∧ pyRoundInt v ≤ 255 := by
    intro v h0 h1
    exact ⟨rhe_nonneg h0, rhe_le (by exact_mod_cast h1)⟩
  have hr : 0 ≤ (analyze cfg pixels).r ∧ (analyze cfg pixels).r ≤ 255 := by
    simp only [analyze]
    split
    · rw [pyRoundInt_intCast]
      exact scale_mem hcr _
    · exact hchan _ hm1.1 hm1.2
  have hg : 0 ≤ (analyze cfg pixels).g ∧ (analyze cfg pixels).g ≤ 255 := by
    simp only [analyze]
    split
    · rw [pyRoundInt_intCast]
      exact scale_mem hcg _
    · exact hchan _ hm2.1 hm2.2
  have hbl : 0 ≤ (analyze cfg pixels).b ∧ (analyze cfg pixels).b ≤ 255 := by
    simp only [analyze]
    split
    · rw [pyRoundInt_intCast]
      exact scale_mem hcb _
    · exact hchan _ hm3.1 hm3.2
  refine ⟨⟨rhe ((if cfg.brightness_adjustment_enabled then
      adjustBrightness cfg.min_brightness cfg.max_brightness (rawBrightness pixels)
    else rawBrightness pixels) * 100), rfl⟩,
    hround.1, hround.2, hr.1, hr.2, hg.1, hg.2, hbl.1, hbl.2, rfl⟩

/-- Witness for C7 under `cfgW` on the white frame. -/
theorem c7_result_invariants_witness :
    (∃ n : ℤ, resW.brightness = (n : ℚ) / 100) ∧
    0 ≤ resW.brightness ∧ resW.brightness ≤ 100 ∧
    0 ≤ resW.r ∧ resW.r ≤ 255 ∧ 0 ≤ resW.g ∧ resW.g ≤ 255 ∧ 0 ≤ resW.b ∧ resW.b ≤ 255 ∧
    resW.rgb_string = toString resW.r ++ ", " ++ toString resW.g ++ ", " ++
      toString resW.b :=
  c7_result_invariants cfgW rowsW resW (by decide) (by decide) (by decide) (by decide)
    (by decide) processImage_cfgW

/-- Witness for C9 at a state mid-fetch with three fetches issued. -/
theorem c9_single_flight_witness :
    (timerTick ⟨PollPhase.fetching, 3, none, false⟩).fetchCount = 3 ∧
      timerTick ⟨PollPhase.fetching, 3, none, false⟩ = ⟨PollPhase.fetching, 3, none, false⟩ :=
  c9_single_flight ⟨PollPhase.fetching, 3, none, false⟩ (Or.inl rfl)

end IndoorSun
